import Mathlib

/-!
Verification of the budsctl plugin-resolution and device-matching core.

The Python sources under `budsctl/core` are embedded shallowly: Python
strings become `String`, `bytes` become `List Nat`, `dict` (which preserves
insertion order) becomes an association list `List (String × α)`, exceptions
become `Except`/error sums.  Python string primitives (`lower`, `upper`,
`strip`, substring tests, ...) are re-implemented over `List Char` so that
every definition evaluates inside the kernel.
-/

namespace Budsctl

/-! ### Python string primitives -/

/-- Models Python `str.lower()` for the ASCII data handled by budsctl. -/
def pyLower (s : String) : String :=
  (s.data.map Char.toLower).asString

/-- Models Python `str.upper()` for the ASCII data handled by budsctl. -/
def pyUpper (s : String) : String :=
  (s.data.map Char.toUpper).asString

/-- Character-list version of Python's substring test `n in h`. -/
def subChars (n : List Char) : List Char → Bool
  | [] => n.isEmpty
  | c :: rest => n.isPrefixOf (c :: rest) || subChars n rest

/-- Models Python `needle in hay` on strings (substring containment). -/
def pyIn (needle hay : String) : Bool :=
  subChars needle.data hay.data

/-- Models Python `s.startswith(pre)`. -/
def pyStartsWith (s pre : String) : Bool :=
  pre.data.isPrefixOf s.data

/-- The whitespace characters removed by Python `str.strip()`. -/
def isPyWs (c : Char) : Bool :=
  c = ' ' || c = '\t' || c = '\n' || c = '\r' || c = '\x0b' || c = '\x0c'

/-- Models Python `s.strip()`: drop whitespace from both ends. -/
def pyStrip (s : String) : String :=
  ((s.data.dropWhile isPyWs).reverse.dropWhile isPyWs).reverse.asString

/-- Models Python `s.replace(" ", "")`: remove every space character. -/
def removeSpaces (s : String) : String :=
  (s.data.filter (fun c => !(c == ' '))).asString

/-- Lexicographic comparison of character lists by code point, the order
Python uses to compare strings. -/
def charListLe : List Char → List Char → Bool
  | [], _ => true
  | _ :: _, [] => false
  | a :: as, b :: bs =>
      if a.toNat < b.toNat then true
      else if b.toNat < a.toNat then false
      else charListLe as bs

/-- Boolean string order matching Python `<=` on strings. -/
def strLe (a b : String) : Bool :=
  charListLe a.data b.data

/-- Relation form of `strLe`,, for use with Mathlib's sorting lemmas. -/
def strLeProp (a b : String) : Prop :=
  strLe a b = true

instance : DecidableRel strLeProp := fun a b =>
  inferInstanceAs (Decidable (strLe a b = true))

theorem charListLe_total (as bs : List Char) :
    charListLe as bs = true ∨ charListLe bs as = true := by
  induction as generalizing bs with
  | nil => exact Or.inl rfl
  | cons a at' ih =>
    cases bs with
    | nil => exact Or.inr rfl
    | cons b bt =>
      by_cases h1 : a.toNat < b.toNat
      · exact Or.inl (by simp [charListLe, h1])
      · by_cases h2 : b.toNat < a.toNat
        · exact Or.inr (by simp [charListLe, h1, h2])
        · rcases ih bt with h | h
          · exact Or.inl (by simp [charListLe, h1, h2, h])
          · exact Or.inr (by simp [charListLe, h1, h2, h])

theorem charListLe_trans {as bs cs : List Char}
    (h1 : charListLe as bs = true) (h2 : charListLe bs cs = true) :
    charListLe as cs = true := by
  induction as generalizing bs cs with
  | nil => rfl
  | cons a at' ih =>
    cases bs with
    | nil => simp [charListLe] at h1
    | cons b bt =>
      cases cs with
      | nil => simp [charListLe] at h2
      | cons c ct =>
        rcases Nat.lt_trichotomy b.toNat c.toNat with hbc | hbc | hbc
        · rcases Nat.lt_trichotomy a.toNat b.toNat with hab | hab | hab
          · simp [charListLe, show a.toNat < c.toNat by omega]
          · simp [charListLe, show a.toNat < c.toNat by omega]
          · simp [charListLe, show ¬ a.toNat < b.toNat by omega, hab] at h1
        · rcases Nat.lt_trichotomy a.toNat b.toNat with hab | hab | hab
          · simp [charListLe, show a.toNat < c.toNat by omega]
          · have h1' : charListLe at' bt = true := by
              simpa [charListLe, show ¬ a.toNat < b.toNat by omega,
                show ¬ b.toNat < a.toNat by omega] using h1
            have h2' : charListLe bt ct = true := by
              simpa [charListLe, show ¬ b.toNat < c.toNat by omega,
                show ¬ c.toNat < b.toNat by omega] using h2
            simp [charListLe, show ¬ a.toNat < c.toNat by omega,
              show ¬ c.toNat < a.toNat by omega, ih h1' h2']
          · simp [charListLe, show ¬ a.toNat < b.toNat by omega, hab] at h1
        · simp [charListLe, show ¬ b.toNat < c.toNat by omega, hbc] at h2

instance : IsTotal String strLeProp :=
  ⟨fun a b => charListLe_total a.data b.data⟩

instance : IsTrans String strLeProp :=
  ⟨fun _ _ _ h1 h2 => charListLe_trans h1 h2⟩

/-- Models Python `sorted` on a list of strings. -/
def sortStrings (l : List String) : List String :=
  List.insertionSort strLeProp l

theorem sortStrings_sorted (l : List String) :
    List.Sorted strLeProp (sortStrings l) :=
  List.sorted_insertionSort strLeProp l

theorem sortStrings_perm (l : List String) :
    List.Perm (sortStrings l) l :=
  List.perm_insertionSort strLeProp l

/-! ### Ordered dictionaries (Python `dict` as an association list) -/

/-- Models Python `d.get(k)` / `d[k]`: the value at the (unique) key. -/
def dictGet {α : Type} (m : List (String × α)) (k : String) : Option α :=
  match m with
  | [] => none
  | e :: rest => if e.fst = k then some e.snd else dictGet rest k

/-- Models Python `k in d`. -/
def containsKey {α : Type} : List (String × α) → String → Bool
  | [], _ => false
  | e :: rest, k => (e.fst == k) || containsKey rest k

/-- Models Python `d[k] = v` on an insertion-ordered dict: replace in place
when the key is present, append otherwise. -/
def dictInsert {α : Type} (m : List (String × α)) (k : String) (v : α) :
    List (String × α) :=
  if containsKey m k then m.map (fun e => if e.fst = k then (k, v) else e)
  else m ++ [(k, v)]

theorem dictGet_map_replace {α : Type} (m : List (String × α)) (k j : String) (v : α)
    (hjk : j ≠ k) :
    dictGet (m.map (fun e => if e.fst = k then (k, v) else e)) j = dictGet m j := by
  induction m with
  | nil => rfl
  | cons e rest ih =>
    by_cases hek : e.fst = k
    · have hkj : ¬ k = j := fun h => hjk h.symm
      have hej : ¬ e.fst = j := fun h => hjk (h.symm.trans hek)
      simp [dictGet, hek, hkj, hej, ih]
    · simp [dictGet, hek, ih]

theorem dictGet_map_replace_hit {α : Type} (m : List (String × α)) (k : String) (v : α)
    (hck : containsKey m k = true) :
    dictGet (m.map (fun e => if e.fst = k then (k, v) else e)) k = some v := by
  induction m with
  | nil => simp [containsKey] at hck
  | cons e rest ih =>
    by_cases hek : e.fst = k
    · simp [dictGet, hek]
    · have hcr : containsKey rest k = true := by
        simpa [containsKey, hek] using hck
      simp [dictGet, hek, ih hcr]

theorem dictGet_append {α : Type} (m₁ m₂ : List (String × α)) (j : String) :
    dictGet (m₁ ++ m₂) j =
      match dictGet m₁ j with
      | some v => some v
      | none => dictGet m₂ j := by
  induction m₁ with
  | nil => simp [dictGet]
  | cons e rest ih =>
    by_cases hej : e.fst = j
    · simp [dictGet, hej]
    · simp [dictGet, hej, ih]

theorem dictGet_eq_none_of_not_containsKey {α : Type} (m : List (String × α)) (k : String)
    (h : containsKey m k = false) : dictGet m k = none := by
  induction m with
  | nil => rfl
  | cons e rest ih =>
    simp only [containsKey, Bool.or_eq_false_iff, beq_eq_false_iff_ne, ne_eq] at h
    simp [dictGet, h.1, ih h.2]

theorem dictGet_dictInsert {α : Type} (m : List (String × α)) (k j : String) (v : α) :
    dictGet (dictInsert m k v) j = if j = k then some v else dictGet m j := by
  by_cases hck : containsKey m k
  · by_cases hjk : j = k
    · simp [dictInsert, hck, hjk, dictGet_map_replace_hit m k v hck]
    · simp [dictInsert, hck, hjk, dictGet_map_replace m k j v hjk]
  · have hck' : containsKey m k = false := by simpa using hck
    by_cases hjk : j = k
    · simp [dictInsert, hck', hjk, dictGet_append,
        dictGet_eq_none_of_not_containsKey m k hck', dictGet]
    · have hkj : ¬ k = j := fun h => hjk h.symm
      simp only [dictInsert, hck', Bool.false_eq_true, if_false, dictGet_append, if_neg hjk]
      cases hm : dictGet m j with
      | some w => rfl
      | none => simp [dictGet, hkj]

/-! ### Core data model (`budsctl/core/model.py`) -/

/-- Structure `MatchRules` from `model.py`.  The source field `mac_prefix` is rendered
as `macPrefixes`. -/
structure MatchRules where
  name_contains : List String
  macPrefixes : List String
deriving DecidableEq

/-- Structure `TransportSpec` from `model.py`.  Python's float `timeout_s` is modelled
as a rational. -/
structure TransportSpec where
  type : String
  channel : Option Int := none
  service_uuid : Option String := none
  write_char_uuid : Option String := none
  notify_char_uuid : Option String := none
  write_with_response : Bool := true
  timeout_s : Rat := 5
deriving DecidableEq

/-- Structure `EnumFeature` from `model.py`; `values` maps value names to payload
bytes. -/
structure EnumFeature where
  type : String
  values : List (String × List Nat)
deriving DecidableEq

/-- Structure `Plugin` from `model.py`. -/
structure Plugin where
  id : String
  name : String
  matchRules : MatchRules
  transport : TransportSpec
  features : List (String × EnumFeature)
deriving DecidableEq

/-- Structure `DetectedDevice` from `model.py`. -/
structure DetectedDevice where
  mac : String
  name : String
deriving DecidableEq

/-- Structure `ResolvedTarget` from `model.py`. -/
structure ResolvedTarget where
  device : DetectedDevice
  plugin : Plugin
deriving DecidableEq

/-! ### Device matching (`budsctl/core/device_match.py`) -/

/-- Function `_mac_prefix_match` from `device_match.py`. -/
def _mac_prefix_match (device_mac : String) (plugin : Plugin) : Bool :=
  plugin.matchRules.macPrefixes.any (fun q => pyStartsWith (pyUpper device_mac) q)

/-- Function `_name_contains_match` from `device_match.py`. -/
def _name_contains_match (device_name : String) (plugin : Plugin) : Bool :=
  plugin.matchRules.name_contains.any (fun token => pyIn (pyLower token) (pyLower device_name))

/-- Function `match_score` from `device_match.py`. -/
def match_score (device : DetectedDevice) (plugin : Plugin) : Nat :=
  let mac_match := _mac_prefix_match device.mac plugin
  let name_match := _name_contains_match device.name plugin
  if mac_match && name_match then 3
  else if mac_match then 2
  else if name_match then 1
  else 0

/-- The accumulator loop of `best_plugin_for_device`. -/
def bestAux (device : DetectedDevice) : List Plugin → Option Plugin → Nat → Option Plugin
  | [], best, _ => best
  | p :: rest, best, best_score =>
      if best_score < match_score device p then bestAux device rest (some p) (match_score device p)
      else bestAux device rest best best_score

/-- Function `best_plugin_for_device` from `device_match.py`; the `dict` argument is
an insertion-ordered association list and `.values()` is `map Prod.snd`. -/
def best_plugin_for_device (device : DetectedDevice) (plugins : List (String × Plugin)) :
    Option Plugin :=
  bestAux device (plugins.map Prod.snd) none 0

/-- C1: `match_score` is 3 iff the uppercased MAC starts with some plugin MAC
prefix and some name token occurs case-insensitively in the device name; 2
iff only the MAC condition holds; 1 iff only the name condition; 0 iff
neither. -/
theorem match_score_cases (d : DetectedDevice) (p : Plugin) :
    (match_score d p = 3 ↔
      ((∃ q ∈ p.matchRules.macPrefixes, pyStartsWith (pyUpper d.mac) q = true) ∧
       (∃ t ∈ p.matchRules.name_contains, pyIn (pyLower t) (pyLower d.name) = true)))
  ∧ (match_score d p = 2 ↔
      ((∃ q ∈ p.matchRules.macPrefixes, pyStartsWith (pyUpper d.mac) q = true) ∧
       ¬ (∃ t ∈ p.matchRules.name_contains, pyIn (pyLower t) (pyLower d.name) = true)))
  ∧ (match_score d p = 1 ↔
      (¬ (∃ q ∈ p.matchRules.macPrefixes, pyStartsWith (pyUpper d.mac) q = true) ∧
       (∃ t ∈ p.matchRules.name_contains, pyIn (pyLower t) (pyLower d.name) = true)))
  ∧ (match_score d p = 0 ↔
      (¬ (∃ q ∈ p.matchRules.macPrefixes, pyStartsWith (pyUpper d.mac) q = true) ∧
       ¬ (∃ t ∈ p.matchRules.name_contains, pyIn (pyLower t) (pyLower d.name) = true))) := by
  have hmac : _mac_prefix_match d.mac p = true ↔
      (∃ q ∈ p.matchRules.macPrefixes, pyStartsWith (pyUpper d.mac) q = true) := by
    simp [_mac_prefix_match, List.any_eq_true]
  have hname : _name_contains_match d.name p = true ↔
      (∃ t ∈ p.matchRules.name_contains, pyIn (pyLower t) (pyLower d.name) = true) := by
    simp [_name_contains_match, List.any_eq_true]
  rcases Bool.eq_false_or_eq_true (_mac_prefix_match d.mac p) with h1 | h1 <;>
    rcases Bool.eq_false_or_eq_true (_name_contains_match d.name p) with h2 | h2 <;>
      simp [match_score, h1, h2, ← hmac, ← hname]

/-- Running `bestAux` from a non-`none` accumulator never returns `none`. -/
theorem bestAux_some (d : DetectedDevice) (l : List Plugin) (q : Plugin) (s : Nat) :
    ∃ r, bestAux d l (some q) s = some r := by
  induction l generalizing q s with
  | nil => exact ⟨q, rfl⟩
  | cons p rest ih =>
    by_cases h : s < match_score d p
    · simpa [bestAux, h] using ih p (match_score d p)
    · simpa [bestAux, h] using ih q s

/-- Function `best_plugin_for_device` returns `none` exactly when every plugin scores 0. -/
theorem bestAux_none_iff (d : DetectedDevice) (l : List Plugin) :
    bestAux d l none 0 = none ↔ ∀ p ∈ l, match_score d p = 0 := by
  induction l with
  | nil => simp [bestAux]
  | cons p rest ih =>
    by_cases h : 0 < match_score d p
    · obtain ⟨r, hr⟩ := bestAux_some d rest p (match_score d p)
      simp [bestAux, h, hr]
      omega
    · have h0 : match_score d p = 0 := by omega
      simp [bestAux, h, ih, h0]

/-- Characterisation of `bestAux` started with an accumulated best `q`:
either no later plugin strictly beats `q`, or the result is the first later
plugin strictly beating everything before it. -/
theorem bestAux_some_spec (d : DetectedDevice) (l : List Plugin) (q r : Plugin)
    (h : bestAux d l (some q) (match_score d q) = some r) :
    (r = q ∧ ∀ p ∈ l, match_score d p ≤ match_score d q) ∨
    (∃ pre post, l = pre ++ r :: post ∧ match_score d q < match_score d r ∧
      (∀ p ∈ pre, match_score d p < match_score d r) ∧
      (∀ p ∈ post, match_score d p ≤ match_score d r)) := by
  induction l generalizing q with
  | nil =>
    left
    simp [bestAux] at h
    simp [h]
  | cons p rest ih =>
    by_cases hp : match_score d q < match_score d p
    · have h' : bestAux d rest (some p) (match_score d p) = some r := by
        simpa [bestAux, hp] using h
      rcases ih p h' with ⟨hrq, hall⟩ | ⟨pre, post, hsplit, hlt, hpre, hpost⟩
      · right
        exact ⟨[], rest, by simp [hrq], hrq ▸ hp, by simp, hrq ▸ hall⟩
      · right
        refine ⟨p :: pre, post, by simp [hsplit], hp.trans hlt, ?_, hpost⟩
        intro x hx
        rcases List.mem_cons.mp hx with hx | hx
        · exact hx ▸ hlt
        · exact hpre x hx
    · have h' : bestAux d rest (some q) (match_score d q) = some r := by
        simpa [bestAux, hp] using h
      rcases ih q h' with ⟨hrq, hall⟩ | ⟨pre, post, hsplit, hlt, hpre, hpost⟩
      · left
        refine ⟨hrq, ?_⟩
        intro x hx
        rcases List.mem_cons.mp hx with hx | hx
        · exact hx ▸ le_of_not_lt hp
        · exact hall x hx
      · right
        refine ⟨p :: pre, post, by simp [hsplit], hlt, ?_, hpost⟩
        intro x hx
        rcases List.mem_cons.mp hx with hx | hx
        · exact hx ▸ (le_of_not_lt hp).trans_lt hlt
        · exact hpre x hx

/-- Characterisation of the whole loop started from `none`. -/
theorem bestAux_start_spec (d : DetectedDevice) (l : List Plugin) (r : Plugin)
    (h : bestAux d l none 0 = some r) :
    0 < match_score d r ∧
    ∃ pre post, l = pre ++ r :: post ∧
      (∀ p ∈ pre, match_score d p < match_score d r) ∧
      (∀ p ∈ post, match_score d p ≤ match_score d r) := by
  induction l with
  | nil => simp [bestAux] at h
  | cons p rest ih =>
    by_cases hp : 0 < match_score d p
    · have h' : bestAux d rest (some p) (match_score d p) = some r := by
        simpa [bestAux, hp] using h
      rcases bestAux_some_spec d rest p r h' with ⟨hrq, hall⟩ | ⟨pre, post, hsplit, hlt, hpre, hpost⟩
      · exact ⟨hrq ▸ hp, [], rest, by simp [hrq], by simp, hrq ▸ hall⟩
      · refine ⟨Nat.lt_trans hp hlt, p :: pre, post, by simp [hsplit], ?_, hpost⟩
        intro x hx
        rcases List.mem_cons.mp hx with hx | hx
        · exact hx ▸ hlt
        · exact hpre x hx
    · have h' : bestAux d rest none 0 = some r := by
        simpa [bestAux, hp] using h
      obtain ⟨hr, pre, post, hsplit, hpre, hpost⟩ := ih h'
      refine ⟨hr, p :: pre, post, by simp [hsplit], ?_, hpost⟩
      intro x hx
      rcases List.mem_cons.mp hx with hx | hx
      · rw [hx]; omega
      · exact hpre x hx

/-- C2: `best_plugin_for_device` returns `none` iff every plugin in the
mapping scores 0; otherwise it returns the first plugin (in the mapping's
iteration order) attaining the maximal score — in particular never a
score-0 plugin, and a higher-scoring plugin wins regardless of order. -/
theorem best_plugin_for_device_spec (d : DetectedDevice) (plugins : List (String × Plugin)) :
    (best_plugin_for_device d plugins = none ↔
      ∀ p ∈ plugins.map Prod.snd, match_score d p = 0)
  ∧ (∀ r, best_plugin_for_device d plugins = some r →
      0 < match_score d r ∧
      ∃ pre post, plugins.map Prod.snd = pre ++ r :: post ∧
        (∀ p ∈ pre, match_score d p < match_score d r) ∧
        (∀ p ∈ post, match_score d p ≤ match_score d r)) := by
  constructor
  · exact bestAux_none_iff d (plugins.map Prod.snd)
  · intro r hr
    exact bestAux_start_spec d (plugins.map Prod.snd) r hr

/-! ### Plugin loading (`budsctl/core/plugin_loader.py`) -/

instance {ε α : Type} [DecidableEq ε] [DecidableEq α] : DecidableEq (Except ε α) := fun a b =>
  match a, b with
  | Except.ok x, Except.ok y =>
      if h : x = y then isTrue (by rw [h]) else isFalse (by simp [h])
  | Except.error x, Except.error y =>
      if h : x = y then isTrue (by rw [h]) else isFalse (by simp [h])
  | Except.ok _, Except.error _ => isFalse (by simp)
  | Except.error _, Except.ok _ => isFalse (by simp)

/-- Character class of the loader's `_HEX_RE` regex `^[0-9a-f]+$`. -/
def isLowerHexDigit (c : Char) : Bool :=
  (48 ≤ c.toNat && c.toNat ≤ 57) || (97 ≤ c.toNat && c.toNat ≤ 102)

/-- Value of one lowercase hex digit. -/
def hexVal (c : Char) : Nat :=
  if c.toNat ≤ 57 then c.toNat - 48 else c.toNat - 87

/-- Model of `bytes.fromhex` on an already validated pure-hex string. -/
def hexDecode : List Char → List Nat
  | a :: b :: rest => (16 * hexVal a + hexVal b) :: hexDecode rest
  | _ => []

def _MAX_PAYLOAD_BYTES : Nat := 512

/-- Function `_normalize_hex` from `plugin_loader.py`: `value.strip().lower().replace(" ", "")`
followed by the emptiness, parity, hex-digit and size checks.  The `context`
parameter only prefixes the error messages and is omitted. -/
def _normalize_hex (value : String) : Except String (List Nat) :=
  let normalized := removeSpaces (pyLower (pyStrip value))
  if normalized.data.length = 0 then Except.error "must not be empty"
  else if normalized.data.length % 2 ≠ 0 then Except.error "must have even-length hex"
  else if ¬ normalized.data.all isLowerHexDigit then Except.error "must contain only [0-9a-f]"
  else if (hexDecode normalized.data).length > _MAX_PAYLOAD_BYTES then
    Except.error "exceeds max payload size 512 bytes"
  else Except.ok (hexDecode normalized.data)

/-- Follows the claim's words for C6: the payload after lowercasing and
removing every whitespace character. -/
def specLowerNoWs (value : String) : String :=
  ((pyLower value).data.filter (fun c => !(isPyWs c))).asString

theorem hexDecode_length : ∀ cs : List Char, (hexDecode cs).length = cs.length / 2
  | [] => rfl
  | [_] => by simp [hexDecode]
  | a :: b :: rest => by
      have := hexDecode_length rest
      simp only [hexDecode, List.length_cons, this]
      omega

/-- C6 (counterexample): `"aa\t00"` contains an internal tab.  After
lowercasing and whitespace removal it is a well-formed 2-byte hex payload,
so the claim accepts it, but the code only removes spaces (`replace(" ", "")`)
and rejects it for odd length. -/
theorem normalize_hex_tab_counterexample :
    specLowerNoWs "aa\t00" = "aa00"
  ∧ "aa00".data.length ≠ 0
  ∧ "aa00".data.length % 2 = 0
  ∧ "aa00".data.all isLowerHexDigit = true
  ∧ "aa00".data.length / 2 ≤ _MAX_PAYLOAD_BYTES
  ∧ _normalize_hex "aa\t00" = Except.error "must have even-length hex" := by
  decide

/-- C6 (amended): normalization accepts a payload iff, after stripping
leading/trailing whitespace, lowercasing and removing space characters, it is
non-empty, of even length, pure lowercase hex and decodes to at most 512
bytes; on success it returns the hex decoding of that normalized string. -/
theorem normalize_hex_spec (value : String) :
    ((∃ bs, _normalize_hex value = Except.ok bs) ↔
      ((removeSpaces (pyLower (pyStrip value))).data.length ≠ 0 ∧
       (removeSpaces (pyLower (pyStrip value))).data.length % 2 = 0 ∧
       (removeSpaces (pyLower (pyStrip value))).data.all isLowerHexDigit = true ∧
       (removeSpaces (pyLower (pyStrip value))).data.length ≤ 2 * _MAX_PAYLOAD_BYTES))
  ∧ (∀ bs, _normalize_hex value = Except.ok bs →
      bs = hexDecode (removeSpaces (pyLower (pyStrip value))).data) := by
  have hlen := hexDecode_length (removeSpaces (pyLower (pyStrip value))).data
  constructor
  · constructor
    · rintro ⟨bs, hbs⟩
      simp only [_normalize_hex] at hbs
      split_ifs at hbs with h1 h2 h3 h4
      refine ⟨h1, by omega, by simpa using h3, ?_⟩
      rw [hlen] at h4
      omega
    · rintro ⟨h1, h2, h3, h4⟩
      refine ⟨hexDecode (removeSpaces (pyLower (pyStrip value))).data, ?_⟩
      simp only [_normalize_hex]
      rw [if_neg h1, if_neg (by omega), if_neg (by simp [h3]), if_neg (by omega)]
  · intro bs hbs
    simp only [_normalize_hex] at hbs
    split_ifs at hbs
    exact (Except.ok.injEq _ _ ▸ hbs).symm

/-- C6 (witness for the amended theorem): the spec's own example `"AA 00"`
normalizes to the bytes `0xAA 0x00`. -/
theorem normalize_hex_spec_witness :
    (∃ bs, _normalize_hex "AA 00" = Except.ok bs)
  ∧ _normalize_hex "AA 00" = Except.ok [170, 0] := by
  constructor
  · exact (normalize_hex_spec "AA 00").1.mpr (by decide)
  · decide

/-- Result record of `load_plugins` (`LoadedPlugins` in `plugin_loader.py`). -/
structure LoadedPlugins where
  plugins : List (String × Plugin)
  warnings : List String
deriving DecidableEq

/-- The override warning text from `load_plugins`. -/
def overrideWarning (i : String) : String :=
  "User plugin '" ++ i ++ "' overrides packaged plugin"

/-- First loop of `load_plugins`: fold packaged documents into the mapping,
silently overwriting on id collision. -/
def loadBundled : List Plugin → List (String × Plugin) → List (String × Plugin)
  | [], m => m
  | p :: rest, m => loadBundled rest (dictInsert m p.id p)

/-- Second loop of `load_plugins`: fold user documents, warning whenever the
id is already present, then overwriting. -/
def loadUser : List Plugin → List (String × Plugin) → List String →
    List (String × Plugin) × List String
  | [], m, ws => (m, ws)
  | p :: rest, m, ws =>
      if containsKey m p.id then
        loadUser rest (dictInsert m p.id p) (ws ++ [overrideWarning p.id])
      else loadUser rest (dictInsert m p.id p) ws

/-- Function `load_plugins` from `plugin_loader.py`, over already parsed/validated
documents: `bundled` in filename-sorted order, then `user` in path order. -/
def load_plugins (bundled user : List Plugin) : LoadedPlugins :=
  let m := loadBundled bundled []
  let mw := loadUser user m []
  { plugins := mw.1, warnings := mw.2 }

/-- Follows the claim's words: the last document carrying id `i`, in fold
order. -/
def lastWithId (i : String) (docs : List Plugin) : Option Plugin :=
  docs.foldl (fun acc p => if p.id = i then some p else acc) none

/-- Follows the amended claim's words: one override warning per user document
whose id is already taken when it is processed. -/
def overrideWarningsSpec (existing : List String) : List Plugin → List String
  | [] => []
  | p :: rest =>
      (if p.id ∈ existing then [overrideWarning p.id] else []) ++
        overrideWarningsSpec (p.id :: existing) rest

/-- C3 (counterexample): two packaged documents with the same id `"x"`.  The
second one collides with the first inside the accumulated mapping and
replaces it, but `load_plugins` appends no warning at all — the claim's
"exactly one warning per collision" fails for packaged-source collisions. -/
def pluginA : Plugin :=
  { id := "x", name := "A", matchRules := { name_contains := [], macPrefixes := [] },
    transport := { type := "rfcomm" }, features := [] }

def pluginB : Plugin :=
  { id := "x", name := "B", matchRules := { name_contains := [], macPrefixes := [] },
    transport := { type := "rfcomm" }, features := [] }

theorem load_plugins_bundled_collision_counterexample :
    pluginA.id = pluginB.id
  ∧ containsKey (loadBundled [pluginA] []) pluginB.id = true
  ∧ dictGet (load_plugins [pluginA, pluginB] []).plugins "x" = some pluginB
  ∧ (load_plugins [pluginA, pluginB] []).warnings = [] := by
  decide

theorem containsKey_map_replace {α : Type} (m : List (String × α)) (k j : String) (v : α) :
    containsKey (m.map (fun e => if e.fst = k then (k, v) else e)) j = containsKey m j := by
  induction m with
  | nil => rfl
  | cons e rest ih =>
    by_cases hek : e.fst = k
    · simp [containsKey, hek, ih]
    · simp [containsKey, hek, ih]

theorem containsKey_append {α : Type} (m₁ m₂ : List (String × α)) (j : String) :
    containsKey (m₁ ++ m₂) j = (containsKey m₁ j || containsKey m₂ j) := by
  induction m₁ with
  | nil => rfl
  | cons e rest ih => simp [containsKey, ih, Bool.or_assoc]

theorem containsKey_dictInsert {α : Type} (m : List (String × α)) (k j : String) (v : α) :
    containsKey (dictInsert m k v) j = true ↔ (j = k ∨ containsKey m j = true) := by
  by_cases hck : containsKey m k
  · rw [dictInsert, if_pos hck, containsKey_map_replace]
    constructor
    · exact Or.inr
    · rintro (h | h)
      · rw [h]; exact hck
      · exact h
  · rw [dictInsert, if_neg hck, containsKey_append]
    simp only [containsKey, Bool.or_false, Bool.or_eq_true, beq_iff_eq]
    constructor
    · rintro (h | h)
      · exact Or.inr h
      · exact Or.inl h.symm
    · rintro (h | h)
      · exact Or.inr h.symm
      · exact Or.inl h

theorem lastWithId_foldl (i : String) (docs : List Plugin) (acc : Option Plugin) :
    docs.foldl (fun a p => if p.id = i then some p else a) acc =
      match lastWithId i docs with
      | some q => some q
      | none => acc := by
  induction docs generalizing acc with
  | nil => rfl
  | cons p rest ih =>
    show List.foldl _ (if p.id = i then some p else acc) rest = _
    rw [ih]
    have : lastWithId i (p :: rest) =
        match lastWithId i rest with
        | some q => some q
        | none => if p.id = i then some p else none := by
      show List.foldl _ (if p.id = i then some p else none) rest = _
      rw [ih]
    rw [this]
    cases lastWithId i rest with
    | some q => rfl
    | none =>
      by_cases hpi : p.id = i
      · simp [hpi]
      · simp [hpi]

theorem lastWithId_append (i : String) (b u : List Plugin) :
    lastWithId i (b ++ u) =
      match lastWithId i u with
      | some q => some q
      | none => lastWithId i b := by
  show List.foldl _ none (b ++ u) = _
  rw [List.foldl_append]
  exact lastWithId_foldl i u (lastWithId i b)

theorem dictGet_loadBundled (docs : List Plugin) (m : List (String × Plugin)) (i : String) :
    dictGet (loadBundled docs m) i =
      match lastWithId i docs with
      | some p => some p
      | none => dictGet m i := by
  induction docs generalizing m with
  | nil => rfl
  | cons p rest ih =>
    show dictGet (loadBundled rest (dictInsert m p.id p)) i = _
    rw [ih]
    have hsplit : lastWithId i (p :: rest) =
        match lastWithId i rest with
        | some q => some q
        | none => if p.id = i then some p else none := by
      show List.foldl _ (if p.id = i then some p else none) rest = _
      rw [lastWithId_foldl]
    rw [hsplit]
    cases lastWithId i rest with
    | some q => rfl
    | none =>
      rw [dictGet_dictInsert]
      by_cases hpi : p.id = i
      · simp [hpi]
      · have hip : ¬ i = p.id := fun h => hpi h.symm
        simp [hpi, hip]

theorem loadUser_fst (docs : List Plugin) (m : List (String × Plugin)) (ws : List String) :
    (loadUser docs m ws).1 = loadBundled docs m := by
  induction docs generalizing m ws with
  | nil => rfl
  | cons p rest ih =>
    by_cases h : containsKey m p.id
    · simp only [loadUser, loadBundled, if_pos h]
      exact ih _ _
    · simp only [loadUser, loadBundled, if_neg h]
      exact ih _ _

theorem containsKey_loadBundled (docs : List Plugin) (m : List (String × Plugin)) (j : String) :
    containsKey (loadBundled docs m) j = true ↔
      (containsKey m j = true ∨ j ∈ docs.map Plugin.id) := by
  induction docs generalizing m with
  | nil => simp [loadBundled]
  | cons p rest ih =>
    show containsKey (loadBundled rest (dictInsert m p.id p)) j = true ↔ _
    rw [ih, containsKey_dictInsert]
    simp only [List.map_cons, List.mem_cons]
    tauto

theorem loadUser_warnings (docs : List Plugin) :
    ∀ (m : List (String × Plugin)) (ws : List String) (keys : List String),
      (∀ j, j ∈ keys ↔ containsKey m j = true) →
      (loadUser docs m ws).2 = ws ++ overrideWarningsSpec keys docs := by
  induction docs with
  | nil =>
    intro m ws keys _
    simp [loadUser, overrideWarningsSpec]
  | cons p rest ih =>
    intro m ws keys hcor
    have hcor' : ∀ j, j ∈ p.id :: keys ↔ containsKey (dictInsert m p.id p) j = true := by
      intro j
      rw [containsKey_dictInsert]
      simp [List.mem_cons, hcor j]
    by_cases h : containsKey m p.id = true
    · have hmem : p.id ∈ keys := (hcor p.id).mpr h
      simp only [loadUser, if_pos h]
      rw [ih _ _ _ hcor']
      simp [overrideWarningsSpec, hmem]
    · have hmem : p.id ∉ keys := fun hm => h ((hcor p.id).mp hm)
      simp only [loadUser, if_neg h]
      rw [ih _ _ _ hcor']
      simp [overrideWarningsSpec, hmem]

/-- C3 (amended): merging replaces on every id collision (final mapping =
last document per id, in bundled-then-user fold order) and never errors, but
a warning naming the id is appended exactly for each user-source document
whose id is already taken when it is processed; packaged-source collisions
replace silently.  Loading a bundled then a user document with the same id
therefore yields the user plugin and exactly one override warning. -/
theorem load_plugins_merge_spec (bundled user : List Plugin) :
    (∀ i, dictGet (load_plugins bundled user).plugins i = lastWithId i (bundled ++ user))
  ∧ (load_plugins bundled user).warnings =
      overrideWarningsSpec (bundled.map Plugin.id) user := by
  constructor
  · intro i
    show dictGet (loadUser user (loadBundled bundled []) []).1 i = _
    rw [loadUser_fst, dictGet_loadBundled, dictGet_loadBundled, lastWithId_append]
    cases lastWithId i user <;> cases lastWithId i bundled <;> simp [dictGet]
  · show (loadUser user (loadBundled bundled []) []).2 = _
    have := loadUser_warnings user (loadBundled bundled []) [] (bundled.map Plugin.id) ?_
    · simpa using this
    · intro j
      rw [containsKey_loadBundled]
      simp [containsKey]

/-! ### Strict YAML parsing (`UniqueKeyLoader` in `plugin_loader.py`)

The loader subclasses PyYAML's `SafeLoader`, removing the implicit `bool`
resolver and installing a duplicate-key-rejecting mapping constructor.  The
implicit-resolver regexes below are modelled from the spec's parsing
requirements together with PyYAML's `SafeLoader` resolver table (the PyYAML
library itself is an external dependency, not part of this repository). -/

inductive YamlTag where
  | str
  | bool
  | int
  | float
  | null
  | timestamp
  | merge
  | value
  | yaml
deriving DecidableEq

def isDigitCh (c : Char) : Bool := 48 ≤ c.toNat && c.toNat ≤ 57

def isDigit19 (c : Char) : Bool := 49 ≤ c.toNat && c.toNat ≤ 57

def isDigitU (c : Char) : Bool := isDigitCh c || c == '_'

def isOctalU (c : Char) : Bool := (48 ≤ c.toNat && c.toNat ≤ 55) || c == '_'

def isBinU (c : Char) : Bool := c == '0' || c == '1' || c == '_'

def isHexAnyU (c : Char) : Bool :=
  isDigitCh c || (97 ≤ c.toNat && c.toNat ≤ 102) || (65 ≤ c.toNat && c.toNat ≤ 70) || c == '_'

/-- Strip one leading `-`/`+` sign. -/
def stripSign : List Char → List Char
  | '-' :: r => r
  | '+' :: r => r
  | l => l

/-- Split a character list on every `:`. -/
def splitOnColon : List Char → List (List Char)
  | [] => [[]]
  | ':' :: rest => [] :: splitOnColon rest
  | c :: rest =>
      match splitOnColon rest with
      | g :: gs => (c :: g) :: gs
      | [] => [[c]]

/-- One sexagesimal group `[0-5]?[0-9]`. -/
def isSexDigits : List Char → Bool
  | [c] => isDigitCh c
  | [a, b] => (48 ≤ a.toNat && a.toNat ≤ 53) && isDigitCh b
  | _ => false

/-- PyYAML `SafeLoader` implicit `bool` regex. -/
def boolRe (s : String) : Bool :=
  ["yes", "Yes", "YES", "no", "No", "NO", "true", "True", "TRUE",
   "false", "False", "FALSE", "on", "On", "ON", "off", "Off", "OFF"].contains s

/-- PyYAML `SafeLoader` implicit `null` regex. -/
def nullRe (s : String) : Bool :=
  ["~", "null", "Null", "NULL", ""].contains s

/-- PyYAML `SafeLoader` implicit `merge` regex. -/
def mergeRe (s : String) : Bool := s == "<<"

/-- PyYAML `SafeLoader` implicit `value` regex. -/
def valueRe (s : String) : Bool := s == "="

/-- PyYAML `SafeLoader` implicit `yaml` regex. -/
def yamlRe (s : String) : Bool := ["!", "&", "*"].contains s

/-- PyYAML `SafeLoader` implicit `int` regex. -/
def intRe (s : String) : Bool :=
  match stripSign s.data with
  | [] => false
  | '0' :: 'b' :: r => !r.isEmpty && r.all isBinU
  | '0' :: 'x' :: r => !r.isEmpty && r.all isHexAnyU
  | '0' :: r => r.isEmpty || r.all isOctalU
  | c :: r =>
      isDigit19 c &&
      (match splitOnColon r with
       | g :: gs => g.all isDigitU && (gs.isEmpty || gs.all isSexDigits)
       | [] => true)

/-- Optional exponent `([eE][-+][0-9]+)?` at the end of a float. -/
def expPart : List Char → Bool
  | [] => true
  | e :: sign :: r =>
      (e == 'e' || e == 'E') && (sign == '-' || sign == '+') && !r.isEmpty && r.all isDigitCh
  | _ => false

/-- Pattern `[0-9_]*` followed by an optional exponent. -/
def mantissaExp : List Char → Bool
  | [] => true
  | c :: r => if isDigitU c then mantissaExp r else expPart (c :: r)

/-- Pattern `[0-9_]+` followed by an optional exponent. -/
def mantissa1Exp : List Char → Bool
  | [] => false
  | c :: r => isDigitU c && mantissaExp r

/-- Split at the first `.`, if any. -/
def splitFirstDot : List Char → Option (List Char × List Char)
  | [] => none
  | '.' :: r => some ([], r)
  | c :: r =>
      match splitFirstDot r with
      | some (a, b) => some (c :: a, b)
      | none => none

/-- PyYAML `SafeLoader` implicit `float` regex. -/
def floatRe (s : String) : Bool :=
  let cs0 := s.data
  let signed : Bool := match cs0 with
    | '-' :: _ => true
    | '+' :: _ => true
    | _ => false
  let cs := stripSign cs0
  if (!signed) && (cs == ".nan".data || cs == ".NaN".data || cs == ".NAN".data) then true
  else if cs == ".inf".data || cs == ".Inf".data || cs == ".INF".data then true
  else
    match splitFirstDot cs with
    | none => false
    | some (before, after) =>
      match before with
      | [] => (!signed) && mantissa1Exp after
      | c :: r =>
          isDigitCh c &&
          (match splitOnColon r with
           | g :: gs =>
               if gs.isEmpty then g.all isDigitU && mantissaExp after
               else g.all isDigitU && gs.all isSexDigits && after.all isDigitU
           | [] => mantissaExp after)

/-- Leading run of digits, returning the count and the remainder. -/
def takeDigits : List Char → Nat × List Char
  | [] => (0, [])
  | c :: r =>
      if isDigitCh c then
        let p := takeDigits r
        (p.1 + 1, p.2)
      else (0, c :: r)

/-- Timezone tail `[0-9][0-9]?(:[0-9][0-9])?`. -/
def tsTzNum : List Char → Bool
  | [a] => isDigitCh a
  | [a, b] => isDigitCh a && isDigitCh b
  | [a, ':', c, d] => isDigitCh a && isDigitCh c && isDigitCh d
  | [a, b, ':', c, d] => isDigitCh a && isDigitCh b && isDigitCh c && isDigitCh d
  | _ => false

/-- Fraction and timezone tail `(\.[0-9]*)?([ \t]*(Z|[-+]tz))?`. -/
def tsFracTz (cs : List Char) : Bool :=
  let cs1 := match cs with
    | '.' :: r => r.dropWhile isDigitCh
    | _ => cs
  if cs1.isEmpty then true
  else
    match cs1.dropWhile (fun c => c == ' ' || c == '\t') with
    | ['Z'] => true
    | '-' :: r => tsTzNum r
    | '+' :: r => tsTzNum r
    | _ => false

/-- Time of day `[0-9][0-9]?:[0-9][0-9]:[0-9][0-9]` plus optional tail. -/
def tsTime (cs : List Char) : Bool :=
  let p := takeDigits cs
  (p.1 == 1 || p.1 == 2) &&
    (match p.2 with
     | ':' :: m1 :: m2 :: ':' :: s1 :: s2 :: rest =>
         isDigitCh m1 && isDigitCh m2 && isDigitCh s1 && isDigitCh s2 && tsFracTz rest
     | _ => false)

/-- Separator `([Tt]|[ \t]+)` then the time of day. -/
def tsAfterDay : List Char → Bool
  | 'T' :: r => tsTime r
  | 't' :: r => tsTime r
  | c :: r =>
      (c == ' ' || c == '\t') && tsTime (r.dropWhile (fun x => x == ' ' || x == '\t'))
  | [] => false

/-- Extended date tail: month and day of 1–2 digits then time. -/
def tsExtended (cs : List Char) : Bool :=
  let p := takeDigits cs
  (p.1 == 1 || p.1 == 2) &&
    (match p.2 with
     | '-' :: r2 =>
         let q := takeDigits r2
         (q.1 == 1 || q.1 == 2) && tsAfterDay q.2
     | _ => false)

/-- Plain date tail `[0-9][0-9]-[0-9][0-9]`. -/
def tsDateShort : List Char → Bool
  | [m1, m2, '-', d1, d2] => isDigitCh m1 && isDigitCh m2 && isDigitCh d1 && isDigitCh d2
  | _ => false

/-- PyYAML `SafeLoader` implicit `timestamp` regex. -/
def tsRe (s : String) : Bool :=
  match s.data with
  | y1 :: y2 :: y3 :: y4 :: '-' :: rest =>
      isDigitCh y1 && isDigitCh y2 && isDigitCh y3 && isDigitCh y4 &&
        (tsDateShort rest || tsExtended rest)
  | _ => false

/-- PyYAML `SafeLoader`'s implicit-resolver table for plain scalars. -/
def safeLoaderResolvers : List (YamlTag × (String → Bool)) :=
  [(YamlTag.bool, boolRe), (YamlTag.float, floatRe), (YamlTag.int, intRe),
   (YamlTag.merge, mergeRe), (YamlTag.null, nullRe), (YamlTag.timestamp, tsRe),
   (YamlTag.value, valueRe), (YamlTag.yaml, yamlRe)]

/-- Resolver table of `UniqueKeyLoader`: `SafeLoader`'s with every
`tag:yaml.org,2002:bool` entry filtered out (`plugin_loader.py`, lines
31–40). -/
def uniqueKeyResolvers : List (YamlTag × (String → Bool)) :=
  safeLoaderResolvers.filter (fun r => !(r.fst == YamlTag.bool))

/-- A plain scalar resolves to the first matching implicit resolver's tag,
defaulting to plain `str`. -/
def resolveScalarTag (resolvers : List (YamlTag × (String → Bool))) (s : String) : YamlTag :=
  match resolvers.find? (fun r => r.snd s) with
  | some r => r.fst
  | none => YamlTag.str

/-- Loop of `_construct_mapping` from `plugin_loader.py`: build the mapping,
raising on a key already present. -/
def constructMappingAux {α : Type} (acc : List (String × α)) :
    List (String × α) → Except String (List (String × α))
  | [] => Except.ok acc
  | (k, v) :: rest =>
      if containsKey acc k then Except.error ("Duplicate key '" ++ k ++ "' in YAML document")
      else constructMappingAux (dictInsert acc k v) rest

/-- Function `_construct_mapping` from `plugin_loader.py`, over the key/value pairs of
one mapping node. -/
def construct_mapping {α : Type} (pairs : List (String × α)) :
    Except String (List (String × α)) :=
  constructMappingAux [] pairs

theorem constructMappingAux_error_of_mem {α : Type} (pairs : List (String × α)) :
    ∀ (acc : List (String × α)) (k : String), k ∈ pairs.map Prod.fst →
      containsKey acc k = true →
      ∃ e, constructMappingAux acc pairs = Except.error e := by
  induction pairs with
  | nil =>
    intro acc k hm _
    simp at hm
  | cons e rest ih =>
    intro acc k hm hacc
    obtain ⟨k', v'⟩ := e
    by_cases h : containsKey acc k' = true
    · exact ⟨"Duplicate key '" ++ k' ++ "' in YAML document",
        by simp only [constructMappingAux, if_pos h]⟩
    · rw [List.map_cons] at hm
      rcases List.mem_cons.mp hm with hk | hk
      · rw [show k = k' from hk] at hacc
        exact absurd hacc h
      · have hacc' : containsKey (dictInsert acc k' v') k = true :=
          (containsKey_dictInsert acc k' k v').mpr (Or.inr hacc)
        obtain ⟨w, hw⟩ := ih (dictInsert acc k' v') k hk hacc'
        exact ⟨w, by simp only [constructMappingAux, if_neg h, hw]⟩

theorem constructMappingAux_error_of_count {α : Type} (pairs : List (String × α)) :
    ∀ (acc : List (String × α)) (k : String),
      2 ≤ (pairs.map Prod.fst).count k →
      ∃ e, constructMappingAux acc pairs = Except.error e := by
  induction pairs with
  | nil =>
    intro acc k h
    simp [List.count] at h
  | cons e rest ih =>
    intro acc k h
    obtain ⟨k', v'⟩ := e
    by_cases hc : containsKey acc k' = true
    · exact ⟨"Duplicate key '" ++ k' ++ "' in YAML document",
        by simp only [constructMappingAux, if_pos hc]⟩
    · by_cases hk : k = k'
      · subst hk
        have h1 : 0 < (rest.map Prod.fst).count k := by
          by_contra hzero
          have hz : (rest.map Prod.fst).count k = 0 := by omega
          rw [List.map_cons, List.count_cons, hz] at h
          simp at h
        have hm : k ∈ rest.map Prod.fst := List.count_pos_iff.mp h1
        have hacc' : containsKey (dictInsert acc k v') k = true :=
          (containsKey_dictInsert acc k k v').mpr (Or.inl rfl)
        obtain ⟨w, hw⟩ := constructMappingAux_error_of_mem rest (dictInsert acc k v') k hm hacc'
        exact ⟨w, by simp only [constructMappingAux, if_neg hc, hw]⟩
      · have hkk : ¬ k' = k := fun h' => hk h'.symm
        have h2 : 2 ≤ (rest.map Prod.fst).count k := by
          rw [List.map_cons, List.count_cons] at h
          simp [hkk] at h
          omega
        obtain ⟨w, hw⟩ := ih (dictInsert acc k' v') k h2
        exact ⟨w, by simp only [constructMappingAux, if_neg hc, hw]⟩

/-- C7: parsing a mapping rejects any second occurrence of an identical key
at the same nesting level, and no scalar ever resolves to the boolean tag —
in particular `yes`/`no`/`on`/`off` stay literal strings. -/
theorem yaml_strict_parsing_spec :
    (∀ (α : Type) (pairs : List (String × α)) (k : String),
       2 ≤ (pairs.map Prod.fst).count k →
       ∃ e, construct_mapping pairs = Except.error e)
  ∧ (∀ s, resolveScalarTag uniqueKeyResolvers s ≠ YamlTag.bool)
  ∧ resolveScalarTag uniqueKeyResolvers "yes" = YamlTag.str
  ∧ resolveScalarTag uniqueKeyResolvers "no" = YamlTag.str
  ∧ resolveScalarTag uniqueKeyResolvers "on" = YamlTag.str
  ∧ resolveScalarTag uniqueKeyResolvers "off" = YamlTag.str := by
  refine ⟨?_, ?_, by decide, by decide, by decide, by decide⟩
  · intro α pairs k h
    exact constructMappingAux_error_of_count pairs [] k h
  · intro s
    unfold resolveScalarTag
    cases hf : List.find? (fun r => r.snd s) uniqueKeyResolvers with
    | none => decide
    | some r =>
      have hm : r ∈ uniqueKeyResolvers := List.mem_of_find?_eq_some hf
      have hr := (List.mem_filter.mp hm).2
      simpa using hr

/-- C7 (witness): a mapping node with the key `on` occurring twice is
rejected with a duplicate-key error. -/
theorem yaml_strict_parsing_spec_witness :
    ∃ e, construct_mapping [("on", 1), ("off", 2), ("on", 3)] = Except.error e :=
  yaml_strict_parsing_spec.1 Nat [("on", 1), ("off", 2), ("on", 3)] "on" (by decide)

/-! ### Target resolution (`BudsService.resolve_target` in `service.py`) -/

inductive SelErr where
  | noDevices
  | unknownPlugin (pid : String)
  | noHintMatch (hint : String)
  | noMatchForPlugin (pid : String)
  | noMatchAny
  | multipleCandidates (desc : String)
deriving DecidableEq

/-- Python truthiness of an optional string: `if s:` is false for `None` and
for the empty string. -/
def truthy : Option String → Bool
  | none => false
  | some s => !(s.data.isEmpty)

/-- The underlying string of an optional string (`""` for `None`). -/
def getStr : Option String → String
  | none => ""
  | some s => s

/-- Lines 54–57 of `service.py`: resolve the explicit plugin override. -/
def resolveOverride (plugins : List (String × Plugin)) (plugin_id : Option String) :
    Except SelErr (Option Plugin) :=
  if truthy plugin_id then
    match dictGet plugins (getStr plugin_id) with
    | none => Except.error (SelErr.unknownPlugin (getStr plugin_id))
    | some p => Except.ok (some p)
  else Except.ok none

/-- Body of the candidate loop (lines 59–68 of `service.py`) for one device. -/
def candidateFor (plugins : List (String × Plugin)) (override : Option Plugin)
    (device : DetectedDevice) : Option ResolvedTarget :=
  match override with
  | some plugin =>
      match best_plugin_for_device device [(plugin.id, plugin)] with
      | none => none
      | some _ => some { device := device, plugin := plugin }
  | none =>
      match best_plugin_for_device device plugins with
      | none => none
      | some plugin => some { device := device, plugin := plugin }

/-- The matched-candidate list built by lines 59–68 of `service.py`. -/
def matchedCandidates (plugins : List (String × Plugin)) (override : Option Plugin)
    (devices : List DetectedDevice) : List ResolvedTarget :=
  devices.filterMap (candidateFor plugins override)

/-- The hint predicate of lines 72–80 of `service.py` (hint already
lowercased). -/
def hintMatches (hint : String) (c : ResolvedTarget) : Bool :=
  pyLower c.device.mac == hint || pyIn hint (pyLower c.device.mac) ||
    pyIn hint (pyLower c.device.name) || pyIn hint (pyLower c.plugin.id) ||
    pyIn hint (pyLower c.plugin.name)

/-- The candidate list rendered for the multiple-candidates error (line 95 of
`service.py`). -/
def describeCandidates (cs : List ResolvedTarget) : String :=
  String.intercalate ", " (cs.map (fun c => c.device.mac ++ " (" ++ c.device.name ++ ")"))

/-- Lines 85–100 of `service.py`: the zero/one/many decision. -/
def finalizeCandidates (plugin_id : Option String) (candidates : List ResolvedTarget) :
    Except SelErr ResolvedTarget :=
  match candidates with
  | [] =>
      if truthy plugin_id then Except.error (SelErr.noMatchForPlugin (getStr plugin_id))
      else Except.error SelErr.noMatchAny
  | [c] => Except.ok c
  | cs => Except.error (SelErr.multipleCandidates (describeCandidates cs))

/-- Function `BudsService.resolve_target` from `service.py`, over an explicit device
list (the `list_devices` collaborator's result). -/
def resolve_target (plugins : List (String × Plugin)) (devices : List DetectedDevice)
    (plugin_id device_hint : Option String) : Except SelErr ResolvedTarget :=
  if devices.isEmpty then Except.error SelErr.noDevices
  else
    match resolveOverride plugins plugin_id with
    | Except.error e => Except.error e
    | Except.ok ov =>
      let candidates := matchedCandidates plugins ov devices
      if truthy device_hint then
        let hinted := candidates.filter (hintMatches (pyLower (getStr device_hint)))
        if hinted.isEmpty then Except.error (SelErr.noHintMatch (getStr device_hint))
        else finalizeCandidates plugin_id hinted
      else finalizeCandidates plugin_id candidates

theorem isPrefixOf_self {α : Type} [BEq α] [LawfulBEq α] (l : List α) :
    l.isPrefixOf l = true := by
  induction l with
  | nil => rfl
  | cons a r ih => simp [List.isPrefixOf, ih]

theorem pyIn_refl (s : String) : pyIn s s = true := by
  unfold pyIn
  cases h : s.data with
  | nil => simp [subChars]
  | cons c r =>
    rw [subChars]
    simp [isPrefixOf_self]

/-- C4: a truthy `device_hint` is applied strictly after matching, to the
matched-candidate list only: a candidate survives iff the lowercased hint
equals or is contained in its device MAC, device name, plugin id or plugin
name; if none survives, resolution fails with the no-device-matching-hint
error even though matched candidates existed; otherwise only the surviving
candidates reach the zero/one/many decision. -/
theorem resolve_target_hint_spec (plugins : List (String × Plugin))
    (devices : List DetectedDevice) (plugin_id : Option String) (h : String)
    (hh : truthy (some h) = true) (ov : Option Plugin)
    (hov : resolveOverride plugins plugin_id = Except.ok ov)
    (hdev : devices.isEmpty = false) :
    (∀ c ∈ matchedCandidates plugins ov devices,
       (c ∈ (matchedCandidates plugins ov devices).filter (hintMatches (pyLower h)) ↔
         ((pyLower h = pyLower c.device.mac ∨ pyIn (pyLower h) (pyLower c.device.mac) = true) ∨
          (pyLower h = pyLower c.device.name ∨ pyIn (pyLower h) (pyLower c.device.name) = true) ∨
          (pyLower h = pyLower c.plugin.id ∨ pyIn (pyLower h) (pyLower c.plugin.id) = true) ∨
          (pyLower h = pyLower c.plugin.name ∨ pyIn (pyLower h) (pyLower c.plugin.name) = true))))
  ∧ ((matchedCandidates plugins ov devices).filter (hintMatches (pyLower h)) = [] →
      resolve_target plugins devices plugin_id (some h) =
        Except.error (SelErr.noHintMatch h))
  ∧ (∀ hs, (matchedCandidates plugins ov devices).filter (hintMatches (pyLower h)) = hs →
      hs ≠ [] →
      resolve_target plugins devices plugin_id (some h) = finalizeCandidates plugin_id hs) := by
  refine ⟨?_, ?_, ?_⟩
  · intro c hc
    rw [List.mem_filter]
    simp only [hc, true_and]
    unfold hintMatches
    simp only [Bool.or_eq_true, beq_iff_eq]
    constructor
    · rintro ((((h1 | h1) | h1) | h1) | h1)
      · exact Or.inl (Or.inl h1.symm)
      · exact Or.inl (Or.inr h1)
      · exact Or.inr (Or.inl (Or.inr h1))
      · exact Or.inr (Or.inr (Or.inl (Or.inr h1)))
      · exact Or.inr (Or.inr (Or.inr (Or.inr h1)))
    · rintro ((h1 | h1) | (h1 | h1) | (h1 | h1) | (h1 | h1))
      · exact Or.inl (Or.inl (Or.inl (Or.inl h1.symm)))
      · exact Or.inl (Or.inl (Or.inl (Or.inr h1)))
      · exact Or.inl (Or.inl (Or.inr (h1 ▸ pyIn_refl (pyLower h))))
      · exact Or.inl (Or.inl (Or.inr h1))
      · exact Or.inl (Or.inr (h1 ▸ pyIn_refl (pyLower h)))
      · exact Or.inl (Or.inr h1)
      · exact Or.inr (h1 ▸ pyIn_refl (pyLower h))
      · exact Or.inr h1
  · intro hfe
    unfold resolve_target
    rw [hdev, hov]
    simp only [Bool.false_eq_true, if_false, hh, if_true, getStr, hfe, List.isEmpty_nil, if_pos]
  · intro hs hfe hne
    have hie : hs.isEmpty = false := by
      cases hs with
      | nil => exact absurd rfl hne
      | cons a l => rfl
    unfold resolve_target
    rw [hdev, hov]
    simp only [Bool.false_eq_true, if_false, hh, if_true, getStr, hfe, hie]

/-- A concrete plugin mirroring the spec's OnePlus Buds 4 example. -/
def onePlusPlugin : Plugin :=
  { id := "oneplus_buds4", name := "OnePlus Buds 4",
    matchRules := { name_contains := ["OnePlus Buds 4"], macPrefixes := ["88:92:CC"] },
    transport := { type := "rfcomm", channel := some 15 },
    features := [("anc", { type := "enum", values := [("off", [170, 1]), ("on", [170, 2])] })] }

/-- The spec's example device. -/
def onePlusDevice : DetectedDevice :=
  { mac := "88:92:CC:11:22:33", name := "OnePlus Buds 4" }

/-- C4 (witness): with one matched candidate and the non-matching hint
`"zzz"`, resolution fails with the no-device-matching-hint error. -/
theorem resolve_target_hint_spec_witness :
    resolve_target [("oneplus_buds4", onePlusPlugin)] [onePlusDevice] none (some "zzz") =
      Except.error (SelErr.noHintMatch "zzz") :=
  (resolve_target_hint_spec [("oneplus_buds4", onePlusPlugin)] [onePlusDevice] none "zzz"
    (by decide) none (by decide) (by decide)).2.1 (by decide)

/-- The candidates that survive matching and the optional hint filter. -/
def survivingCandidates (plugins : List (String × Plugin)) (ov : Option Plugin)
    (devices : List DetectedDevice) (device_hint : Option String) : List ResolvedTarget :=
  if truthy device_hint then
    (matchedCandidates plugins ov devices).filter (hintMatches (pyLower (getStr device_hint)))
  else matchedCandidates plugins ov devices

theorem candidateFor_override (plugins : List (String × Plugin)) (pl : Plugin)
    (d : DetectedDevice) :
    candidateFor plugins (some pl) d =
      if 0 < match_score d pl then some { device := d, plugin := pl } else none := by
  by_cases h : 0 < match_score d pl
  · simp [candidateFor, best_plugin_for_device, bestAux, h]
  · simp [candidateFor, best_plugin_for_device, bestAux, h]

theorem matchedCandidates_override (plugins : List (String × Plugin)) (pl : Plugin)
    (devices : List DetectedDevice) :
    matchedCandidates plugins (some pl) devices =
      devices.filterMap (fun d =>
        if 0 < match_score d pl then some { device := d, plugin := pl } else none) := by
  unfold matchedCandidates
  induction devices with
  | nil => rfl
  | cons d rest ih =>
    simp only [List.filterMap_cons, candidateFor_override, ih]

/-- C5: with an explicit override, an unknown plugin id fails; each device is
tested only against the override plugin (positive score required); and the
zero/one/many decision on the surviving candidates fails on zero (tailored to
the override when no hint is in play), returns the unique survivor, and fails
listing every survivor's MAC and name when more than one survives. -/
theorem resolve_target_selection_spec (plugins : List (String × Plugin))
    (devices : List DetectedDevice) (pid hint : Option String)
    (hdev : devices.isEmpty = false) :
    (truthy pid = true → dictGet plugins (getStr pid) = none →
       resolve_target plugins devices pid hint = Except.error (SelErr.unknownPlugin (getStr pid)))
  ∧ (∀ pl, matchedCandidates plugins (some pl) devices =
       devices.filterMap (fun d =>
         if 0 < match_score d pl then some { device := d, plugin := pl } else none))
  ∧ (∀ ov, resolveOverride plugins pid = Except.ok ov →
       ((survivingCandidates plugins ov devices hint = [] →
           ∃ e, resolve_target plugins devices pid hint = Except.error e)
        ∧ (survivingCandidates plugins ov devices hint = [] → truthy hint = false →
           resolve_target plugins devices pid hint =
             (if truthy pid = true then Except.error (SelErr.noMatchForPlugin (getStr pid))
              else Except.error SelErr.noMatchAny))
        ∧ (∀ c, survivingCandidates plugins ov devices hint = [c] →
           resolve_target plugins devices pid hint = Except.ok c)
        ∧ (∀ c1 c2 cs, survivingCandidates plugins ov devices hint = c1 :: c2 :: cs →
           resolve_target plugins devices pid hint =
             Except.error (SelErr.multipleCandidates (describeCandidates (c1 :: c2 :: cs)))))) := by
  refine ⟨?_, ?_, ?_⟩
  · intro hp hn
    unfold resolve_target resolveOverride
    rw [hdev]
    simp [hp, hn]
  · intro pl
    exact matchedCandidates_override plugins pl devices
  · intro ov hov
    by_cases hht : truthy hint = true
    · have hsv : survivingCandidates plugins ov devices hint =
          (matchedCandidates plugins ov devices).filter (hintMatches (pyLower (getStr hint))) := by
        simp [survivingCandidates, hht]
      refine ⟨?_, ?_, ?_, ?_⟩
      · intro hz
        rw [hsv] at hz
        refine ⟨SelErr.noHintMatch (getStr hint), ?_⟩
        unfold resolve_target
        rw [hdev, hov]
        simp [hht, hz]
      · intro _ hhf
        rw [hhf] at hht
        exact absurd hht (by simp)
      · intro c hc
        rw [hsv] at hc
        unfold resolve_target
        rw [hdev, hov]
        simp [hht, hc, finalizeCandidates]
      · intro c1 c2 cs hc
        rw [hsv] at hc
        unfold resolve_target
        rw [hdev, hov]
        simp [hht, hc, finalizeCandidates]
    · have hhf : truthy hint = false := by simpa using hht
      have hsv : survivingCandidates plugins ov devices hint =
          matchedCandidates plugins ov devices := by
        simp [survivingCandidates, hhf]
      refine ⟨?_, ?_, ?_, ?_⟩
      · intro hz
        rw [hsv] at hz
        refine ⟨if truthy pid = true then SelErr.noMatchForPlugin (getStr pid)
                else SelErr.noMatchAny, ?_⟩
        unfold resolve_target
        rw [hdev, hov]
        by_cases hp : truthy pid = true
        · simp [hhf, hz, finalizeCandidates, hp]
        · simp [hhf, hz, finalizeCandidates, hp]
      · intro hz _
        rw [hsv] at hz
        unfold resolve_target
        rw [hdev, hov]
        by_cases hp : truthy pid = true
        · simp [hhf, hz, finalizeCandidates, hp]
        · simp [hhf, hz, finalizeCandidates, hp]
      · intro c hc
        rw [hsv] at hc
        unfold resolve_target
        rw [hdev, hov]
        simp [hhf, hc, finalizeCandidates]
      · intro c1 c2 cs hc
        rw [hsv] at hc
        unfold resolve_target
        rw [hdev, hov]
        simp [hhf, hc, finalizeCandidates]

/-- A second device matching the same plugin, for the ambiguity witness. -/
def onePlusDevice2 : DetectedDevice :=
  { mac := "88:92:CC:44:55:66", name := "OnePlus Buds 4" }

/-- C5 (witness): two matching devices and no hint fail with the
multiple-candidates error listing both devices. -/
theorem resolve_target_selection_spec_witness :
    resolve_target [("oneplus_buds4", onePlusPlugin)] [onePlusDevice, onePlusDevice2] none none =
      Except.error (SelErr.multipleCandidates (describeCandidates
        [{ device := onePlusDevice, plugin := onePlusPlugin },
         { device := onePlusDevice2, plugin := onePlusPlugin }])) :=
  ((resolve_target_selection_spec [("oneplus_buds4", onePlusPlugin)]
      [onePlusDevice, onePlusDevice2] none none (by decide)).2.2 none (by decide)).2.2.2
    { device := onePlusDevice, plugin := onePlusPlugin }
    { device := onePlusDevice2, plugin := onePlusPlugin } [] (by decide)

/-! ### Feature dispatch (`BudsService.set_feature` / `feature_values` /
`feature_catalog` in `service.py`) -/

inductive FeatErr where
  | selection (e : SelErr)
  | unknownFeature (pid : String) (available : List String)
  | unknownValue (feature : String) (allowed : List String)
  | invalidRfcomm (pid : String)
  | invalidBle (pid : String)
  | unsupportedTransport (t : String) (pid : String)
deriving DecidableEq

/-- The transport call `set_feature` would issue — the send itself is the
external collaborator, so only its arguments are recorded. -/
inductive SendPlan where
  | rfcomm (mac : String) (payload : List Nat) (channel : Int) (timeout_s : Rat)
  | ble (mac : String) (payload : List Nat) (service_uuid write_char_uuid : String)
      (notify_char_uuid : Option String) (write_with_response : Bool) (timeout_s : Rat)
deriving DecidableEq

/-- Function `BudsService.feature_values` from `service.py`: resolve, then look the
feature up, listing the sorted feature names on failure and returning the
sorted value names on success. -/
def feature_values (plugins : List (String × Plugin)) (devices : List DetectedDevice)
    (feature : String) (plugin_id device_hint : Option String) :
    Except FeatErr (ResolvedTarget × List String) :=
  match resolve_target plugins devices plugin_id device_hint with
  | Except.error e => Except.error (FeatErr.selection e)
  | Except.ok target =>
    match dictGet target.plugin.features feature with
    | none => Except.error (FeatErr.unknownFeature target.plugin.id
        (sortStrings (target.plugin.features.map Prod.fst)))
    | some fs => Except.ok (target, sortStrings (fs.values.map Prod.fst))

/-- Function `BudsService.set_feature` from `service.py`: feature lookup via
`feature_values`, then value lookup, then transport dispatch.  A transport
send happens only on the `ok` path. -/
def set_feature (plugins : List (String × Plugin)) (devices : List DetectedDevice)
    (feature value : String) (plugin_id device_hint : Option String) :
    Except FeatErr SendPlan :=
  match feature_values plugins devices feature plugin_id device_hint with
  | Except.error e => Except.error e
  | Except.ok (target, allowed_values) =>
    let fspec := (dictGet target.plugin.features feature).getD { type := "enum", values := [] }
    match dictGet fspec.values value with
    | none => Except.error (FeatErr.unknownValue feature allowed_values)
    | some payload =>
      if target.plugin.transport.type = "rfcomm" then
        match target.plugin.transport.channel with
        | none => Except.error (FeatErr.invalidRfcomm target.plugin.id)
        | some ch =>
            Except.ok (SendPlan.rfcomm target.device.mac payload ch
              target.plugin.transport.timeout_s)
      else if target.plugin.transport.type = "ble" then
        if !(truthy target.plugin.transport.service_uuid) ||
            !(truthy target.plugin.transport.write_char_uuid) then
          Except.error (FeatErr.invalidBle target.plugin.id)
        else
          Except.ok (SendPlan.ble target.device.mac payload
            (getStr target.plugin.transport.service_uuid)
            (getStr target.plugin.transport.write_char_uuid)
            target.plugin.transport.notify_char_uuid
            target.plugin.transport.write_with_response
            target.plugin.transport.timeout_s)
      else
        Except.error (FeatErr.unsupportedTransport target.plugin.transport.type target.plugin.id)

/-- Key order used by `sorted(features.items())`: feature names are unique,
so tuple comparison reduces to the key. -/
def featLeProp (a b : String × EnumFeature) : Prop :=
  strLe a.fst b.fst = true

instance : DecidableRel featLeProp := fun a b =>
  inferInstanceAs (Decidable (strLe a.fst b.fst = true))

/-- Function `BudsService.feature_catalog` from `service.py`. -/
def feature_catalog (plugins : List (String × Plugin)) (devices : List DetectedDevice)
    (plugin_id device_hint : Option String) :
    Except FeatErr (ResolvedTarget × List (String × List String)) :=
  match resolve_target plugins devices plugin_id device_hint with
  | Except.error e => Except.error (FeatErr.selection e)
  | Except.ok target =>
      Except.ok (target,
        (List.insertionSort featLeProp target.plugin.features).map
          (fun fe => (fe.fst, sortStrings (fe.snd.values.map Prod.fst))))

theorem resolveOverride_error_shape (plugins : List (String × Plugin)) (pid : Option String)
    (e : SelErr) (h : resolveOverride plugins pid = Except.error e) :
    ∃ s, e = SelErr.unknownPlugin s := by
  unfold resolveOverride at h
  by_cases hp : truthy pid = true
  · cases hg : dictGet plugins (getStr pid) with
    | none =>
      simp [hp, hg] at h
      exact ⟨getStr pid, h.symm⟩
    | some p => simp [hp, hg] at h
  · simp [hp] at h

theorem finalizeCandidates_ne_noHintMatch (pid : Option String) (cs : List ResolvedTarget)
    (h : String) :
    finalizeCandidates pid cs ≠ Except.error (SelErr.noHintMatch h) := by
  cases cs with
  | nil =>
    by_cases hp : truthy pid = true
    · simp [finalizeCandidates, hp]
    · simp [finalizeCandidates, hp]
  | cons a l =>
    cases l with
    | nil => simp [finalizeCandidates]
    | cons b l2 => simp [finalizeCandidates]

/-- C10: an empty-string argument behaves as an absent argument at the public
interface: `plugin_id = ""` is not treated as an unknown plugin but as "no
override", and `device_hint = ""` applies no hint filtering (and can never
produce the no-device-matching-hint error), across `resolve_target`,
`feature_values`, `set_feature` and `feature_catalog`. -/
theorem empty_string_args_spec (plugins : List (String × Plugin))
    (devices : List DetectedDevice) :
    (∀ hint, resolve_target plugins devices (some "") hint =
       resolve_target plugins devices none hint)
  ∧ (∀ pid, resolve_target plugins devices pid (some "") =
       resolve_target plugins devices pid none)
  ∧ (∀ pid h, resolve_target plugins devices pid none ≠
       Except.error (SelErr.noHintMatch h))
  ∧ (∀ pid h, resolve_target plugins devices pid (some "") ≠
       Except.error (SelErr.noHintMatch h))
  ∧ (∀ feature hint, feature_values plugins devices feature (some "") hint =
       feature_values plugins devices feature none hint)
  ∧ (∀ feature pid, feature_values plugins devices feature pid (some "") =
       feature_values plugins devices feature pid none)
  ∧ (∀ feature value hint, set_feature plugins devices feature value (some "") hint =
       set_feature plugins devices feature value none hint)
  ∧ (∀ feature value pid, set_feature plugins devices feature value pid (some "") =
       set_feature plugins devices feature value pid none)
  ∧ (∀ hint, feature_catalog plugins devices (some "") hint =
       feature_catalog plugins devices none hint)
  ∧ (∀ pid, feature_catalog plugins devices pid (some "") =
       feature_catalog plugins devices pid none) := by
  have h1 : ∀ hint, resolve_target plugins devices (some "") hint =
      resolve_target plugins devices none hint := fun _ => rfl
  have h2 : ∀ pid, resolve_target plugins devices pid (some "") =
      resolve_target plugins devices pid none := fun _ => rfl
  have h3 : ∀ pid h, resolve_target plugins devices pid none ≠
      Except.error (SelErr.noHintMatch h) := by
    intro pid h
    unfold resolve_target
    by_cases hd : devices.isEmpty = true
    · simp [hd]
    · cases hres : resolveOverride plugins pid with
      | error e =>
        obtain ⟨s, hs⟩ := resolveOverride_error_shape plugins pid e hres
        simp [hd, hres, hs]
      | ok ov =>
        have hne := finalizeCandidates_ne_noHintMatch pid
          (matchedCandidates plugins ov devices) h
        simp [hd, hres, truthy, hne]
  refine ⟨h1, h2, h3, ?_, ?_, ?_, ?_, ?_, ?_, ?_⟩
  · intro pid h
    rw [h2 pid]
    exact h3 pid h
  · intro feature hint
    unfold feature_values
    rw [h1 hint]
  · intro feature pid
    unfold feature_values
    rw [h2 pid]
  · intro feature value hint
    unfold set_feature feature_values
    rw [h1 hint]
  · intro feature value pid
    unfold set_feature feature_values
    rw [h2 pid]
  · intro hint
    unfold feature_catalog
    rw [h1 hint]
  · intro pid
    unfold feature_catalog
    rw [h2 pid]

/-- C9: for a resolved target, an unknown feature fails (in `feature_values`
and in `set_feature`) with an error carrying all of the plugin's feature
names sorted; a known feature with an unknown value fails in `set_feature`
with an error carrying that feature's value names sorted.  The feature lookup
happens first — the unknown-feature error is produced whatever the value —
and both failures return errors, so no transport send is planned. -/
theorem feature_errors_sorted_spec (plugins : List (String × Plugin))
    (devices : List DetectedDevice) (feature value : String)
    (pid hint : Option String) (target : ResolvedTarget)
    (hres : resolve_target plugins devices pid hint = Except.ok target) :
    (dictGet target.plugin.features feature = none →
       (feature_values plugins devices feature pid hint =
          Except.error (FeatErr.unknownFeature target.plugin.id
            (sortStrings (target.plugin.features.map Prod.fst)))
        ∧ set_feature plugins devices feature value pid hint =
          Except.error (FeatErr.unknownFeature target.plugin.id
            (sortStrings (target.plugin.features.map Prod.fst)))
        ∧ List.Sorted strLeProp (sortStrings (target.plugin.features.map Prod.fst))
        ∧ List.Perm (sortStrings (target.plugin.features.map Prod.fst))
            (target.plugin.features.map Prod.fst)))
  ∧ (∀ fs, dictGet target.plugin.features feature = some fs →
       dictGet fs.values value = none →
       (set_feature plugins devices feature value pid hint =
          Except.error (FeatErr.unknownValue feature (sortStrings (fs.values.map Prod.fst)))
        ∧ List.Sorted strLeProp (sortStrings (fs.values.map Prod.fst))
        ∧ List.Perm (sortStrings (fs.values.map Prod.fst)) (fs.values.map Prod.fst))) := by
  constructor
  · intro hf
    have hfv : feature_values plugins devices feature pid hint =
        Except.error (FeatErr.unknownFeature target.plugin.id
          (sortStrings (target.plugin.features.map Prod.fst))) := by
      unfold feature_values
      simp only [hres, hf]
    refine ⟨hfv, ?_, sortStrings_sorted _, sortStrings_perm _⟩
    unfold set_feature
    rw [hfv]
  · intro fs hf hv
    have hfv : feature_values plugins devices feature pid hint =
        Except.ok (target, sortStrings (fs.values.map Prod.fst)) := by
      unfold feature_values
      simp only [hres, hf]
    refine ⟨?_, sortStrings_sorted _, sortStrings_perm _⟩
    unfold set_feature
    rw [hfv]
    simp only [hf, Option.getD_some, hv]

/-- C9 (witness): `set_feature "anc" "bogus"` on the resolved OnePlus target
fails with the unknown-value error carrying the sorted value names. -/
theorem feature_errors_sorted_spec_witness :
    set_feature [("oneplus_buds4", onePlusPlugin)] [onePlusDevice] "anc" "bogus" none none =
      Except.error (FeatErr.unknownValue "anc"
        (sortStrings (([("off", [170, 1]), ("on", [170, 2])] :
          List (String × List Nat)).map Prod.fst)))
  ∧ List.Sorted strLeProp (sortStrings (([("off", [170, 1]), ("on", [170, 2])] :
      List (String × List Nat)).map Prod.fst))
  ∧ List.Perm (sortStrings (([("off", [170, 1]), ("on", [170, 2])] :
      List (String × List Nat)).map Prod.fst))
      (([("off", [170, 1]), ("on", [170, 2])] : List (String × List Nat)).map Prod.fst) :=
  (feature_errors_sorted_spec [("oneplus_buds4", onePlusPlugin)] [onePlusDevice]
      "anc" "bogus" none none { device := onePlusDevice, plugin := onePlusPlugin }
      (by decide)).2
    { type := "enum", values := [("off", [170, 1]), ("on", [170, 2])] }
    (by decide) (by decide)

/-! ### Device discovery (`_discover_devices` in `service.py`)

each command run is modelled by its observable outcome: `none` for a missing
binary (`FileNotFoundError`), otherwise an exit code, the device data parsed
from stdout by the regexes, and stderr. -/

structure RunResult (α : Type) where
  returncode : Int
  parsed : List α
  stderr : String
deriving DecidableEq

/-- The per-line device loop shared by both discovery phases: uppercase the
MAC, skip already-seen MACs, append the rest.  `f` renders one parsed stdout
item into a raw MAC and a display name. -/
def addParsed {α : Type} (f : α → String × String) (seen : List String)
    (devices : List DetectedDevice) : List α → List String × List DetectedDevice
  | [] => (seen, devices)
  | x :: rest =>
      if seen.contains (pyUpper (f x).fst) then addParsed f seen devices rest
      else addParsed f (pyUpper (f x).fst :: seen)
        (devices ++ [{ mac := pyUpper (f x).fst, name := (f x).snd }]) rest

/-- The per-command loop shared by both discovery phases: skip missing
binaries, collect `cmd -> stderr` for nonzero exits with nonempty stripped
stderr, parse stdout on exit 0. -/
def runCommands {α : Type} (f : α → String × String) :
    List (String × Option (RunResult α)) → List String → List DetectedDevice →
    List String → List String × List DetectedDevice × List String
  | [], seen, devices, errors => (seen, devices, errors)
  | (_, none) :: rest, seen, devices, errors => runCommands f rest seen devices errors
  | (cmd, some r) :: rest, seen, devices, errors =>
      if r.returncode ≠ 0 then
        if (pyStrip r.stderr).data.isEmpty then runCommands f rest seen devices errors
        else runCommands f rest seen devices (errors ++ [cmd ++ " -> " ++ pyStrip r.stderr])
      else
        runCommands f rest (addParsed f seen devices r.parsed).1
          (addParsed f seen devices r.parsed).2 errors

/-- Rendering of one `_DEVICE_LINE_RE` match: `(mac, name)` with the name
stripped (line 212 of `service.py`). -/
def btParse (p : String × String) : String × String :=
  (p.fst, pyStrip p.snd)

/-- Rendering of one `_MAC_RE` match in the fallback phase (line 239). -/
def fbParse (m : String) : String × String :=
  (m, "<unknown-device>")

/-- Function `_discover_devices` from `service.py`: bluetoothctl phase, early return
on any devices, hcitool fallback phase, then the error/empty decision. -/
def _discover_devices (bt : List (String × Option (RunResult (String × String))))
    (fb : List (String × Option (RunResult String))) :
    Except String (List DetectedDevice) :=
  match runCommands btParse bt [] [] [] with
  | (seen, devices, errors) =>
    if devices.isEmpty = false then Except.ok devices
    else
      match runCommands fbParse fb seen devices errors with
      | (_, devices2, errors2) =>
        if devices2.isEmpty = false then Except.ok devices2
        else if errors2.isEmpty = false then
          Except.error
            ("Bluetooth discovery failed. Ensure a working D-Bus/BlueZ session. Details: "
              ++ String.intercalate " | " errors2)
        else Except.ok devices2

def btOkEmpty : RunResult (String × String) :=
  { returncode := 0, parsed := [], stderr := "" }

def fbErr : RunResult String :=
  { returncode := 1, parsed := [], stderr := "boom" }

/-- C8 (counterexample): `bluetoothctl devices` succeeds (exit 0) with zero
devices and `hcitool con` fails with stderr — a mechanism succeeded, yet the
code raises `DeviceDiscoveryError` instead of returning the empty success the
claim promises. -/
theorem discover_success_plus_error_counterexample :
    btOkEmpty.returncode = 0
  ∧ _discover_devices [("bluetoothctl devices", some btOkEmpty)] [("hcitool con", some fbErr)] =
      Except.error
        ("Bluetooth discovery failed. Ensure a working D-Bus/BlueZ session. Details: hcitool con -> boom") := by
  decide

theorem addParsed_devices_nil {α : Type} (f : α → String × String) (l : List α) :
    ∀ (seen : List String) (devices : List DetectedDevice),
      (devices = [] → seen = []) →
      ((addParsed f seen devices l).2 = [] ↔ (devices = [] ∧ l = [])) := by
  induction l with
  | nil =>
    intro seen devices _
    simp [addParsed]
  | cons x rest ih =>
    intro seen devices inv
    by_cases hc : seen.contains (pyUpper (f x).fst) = true
    · rw [addParsed, if_pos hc]
      rw [ih seen devices inv]
      constructor
      · rintro ⟨hd, _⟩
        have hs : seen = [] := inv hd
        rw [hs] at hc
        simp [List.contains] at hc
      · rintro ⟨_, hl⟩
        exact absurd hl (by simp)
    · rw [addParsed, if_neg hc]
      rw [ih _ _ (by intro h; exact absurd h (by simp))]
      constructor
      · rintro ⟨hd, _⟩
        exact absurd hd (by simp)
      · rintro ⟨_, hl⟩
        exact absurd hl (by simp)

theorem addParsed_exit_inv {α : Type} (f : α → String × String) (l : List α)
    (seen : List String) (devices : List DetectedDevice)
    (inv : devices = [] → seen = []) :
    (addParsed f seen devices l).2 = [] → (addParsed f seen devices l).1 = [] := by
  intro h
  obtain ⟨hd, hl⟩ := (addParsed_devices_nil f l seen devices inv).mp h
  subst hl
  simpa [addParsed] using inv hd

theorem runCommands_devices_nil {α : Type} (f : α → String × String)
    (cmds : List (String × Option (RunResult α))) :
    ∀ (seen : List String) (devices : List DetectedDevice) (errors : List String),
      (devices = [] → seen = []) →
      ((runCommands f cmds seen devices errors).2.1 = [] ↔
        (devices = [] ∧ ∀ e ∈ cmds, ∀ r, e.2 = some r → r.returncode = 0 → r.parsed = [])) := by
  induction cmds with
  | nil =>
    intro seen devices errors _
    simp [runCommands]
  | cons e rest ih =>
    intro seen devices errors inv
    obtain ⟨cmd, res⟩ := e
    cases res with
    | none =>
      rw [runCommands, ih seen devices errors inv]
      simp
    | some r =>
      by_cases hrc : r.returncode ≠ 0
      · by_cases hse : (pyStrip r.stderr).data.isEmpty = true
        · rw [runCommands, if_pos hrc, if_pos hse, ih seen devices errors inv]
          simp only [List.mem_cons, forall_eq_or_imp]
          constructor
          · rintro ⟨hd, hall⟩
            exact ⟨hd, by rintro r' hr' hrc0; rw [Option.some.injEq] at hr'; exact absurd (hr' ▸ hrc0) hrc, hall⟩
          · rintro ⟨hd, _, hall⟩
            exact ⟨hd, hall⟩
        · rw [runCommands, if_pos hrc, if_neg hse, ih seen devices _ inv]
          simp only [List.mem_cons, forall_eq_or_imp]
          constructor
          · rintro ⟨hd, hall⟩
            exact ⟨hd, by rintro r' hr' hrc0; rw [Option.some.injEq] at hr'; exact absurd (hr' ▸ hrc0) hrc, hall⟩
          · rintro ⟨hd, _, hall⟩
            exact ⟨hd, hall⟩
      · have hrc0 : r.returncode = 0 := by omega
        rw [runCommands, if_neg hrc,
          ih _ _ errors (addParsed_exit_inv f r.parsed seen devices inv)]
        rw [addParsed_devices_nil f r.parsed seen devices inv]
        simp only [List.mem_cons, forall_eq_or_imp]
        constructor
        · rintro ⟨⟨hd, hp⟩, hall⟩
          exact ⟨hd, by rintro r' hr'; rw [Option.some.injEq] at hr'; subst hr'; intro _; exact hp, hall⟩
        · rintro ⟨hd, hhead, hall⟩
          exact ⟨⟨hd, hhead r rfl hrc0⟩, hall⟩

theorem runCommands_exit_inv {α : Type} (f : α → String × String)
    (cmds : List (String × Option (RunResult α))) :
    ∀ (seen : List String) (devices : List DetectedDevice) (errors : List String),
      (devices = [] → seen = []) →
      (runCommands f cmds seen devices errors).2.1 = [] →
      (runCommands f cmds seen devices errors).1 = [] := by
  induction cmds with
  | nil =>
    intro seen devices errors inv h
    simpa [runCommands] using inv (by simpa [runCommands] using h)
  | cons e rest ih =>
    intro seen devices errors inv h
    obtain ⟨cmd, res⟩ := e
    cases res with
    | none =>
      rw [runCommands] at h ⊢
      exact ih seen devices errors inv h
    | some r =>
      by_cases hrc : r.returncode ≠ 0
      · by_cases hse : (pyStrip r.stderr).data.isEmpty = true
        · rw [runCommands, if_pos hrc, if_pos hse] at h ⊢
          exact ih seen devices errors inv h
        · rw [runCommands, if_pos hrc, if_neg hse] at h ⊢
          exact ih seen devices _ inv h
      · rw [runCommands, if_neg hrc] at h ⊢
        exact ih _ _ errors (addParsed_exit_inv f r.parsed seen devices inv) h

theorem runCommands_errors_nil {α : Type} (f : α → String × String)
    (cmds : List (String × Option (RunResult α))) :
    ∀ (seen : List String) (devices : List DetectedDevice) (errors : List String),
      ((runCommands f cmds seen devices errors).2.2 = [] ↔
        (errors = [] ∧ ∀ e ∈ cmds, ∀ r, e.2 = some r → r.returncode ≠ 0 →
          (pyStrip r.stderr).data = [])) := by
  induction cmds with
  | nil =>
    intro seen devices errors
    simp [runCommands]
  | cons e rest ih =>
    intro seen devices errors
    obtain ⟨cmd, res⟩ := e
    cases res with
    | none =>
      rw [runCommands, ih seen devices errors]
      simp
    | some r =>
      by_cases hrc : r.returncode ≠ 0
      · by_cases hse : (pyStrip r.stderr).data.isEmpty = true
        · rw [runCommands, if_pos hrc, if_pos hse, ih seen devices errors]
          simp only [List.mem_cons, forall_eq_or_imp]
          constructor
          · rintro ⟨he, hall⟩
            refine ⟨he, ?_, hall⟩
            rintro r' hr' _
            rw [Option.some.injEq] at hr'
            subst hr'
            simpa using hse
          · rintro ⟨he, _, hall⟩
            exact ⟨he, hall⟩
        · rw [runCommands, if_pos hrc, if_neg hse, ih seen devices _]
          simp only [List.mem_cons, forall_eq_or_imp]
          constructor
          · rintro ⟨he, _⟩
            exact absurd he (by simp)
          · rintro ⟨_, hhead, _⟩
            have := hhead r rfl hrc
            simp [this] at hse
      · have hrc0 : r.returncode = 0 := by omega
        rw [runCommands, if_neg hrc, ih _ _ errors]
        simp only [List.mem_cons, forall_eq_or_imp]
        constructor
        · rintro ⟨he, hall⟩
          refine ⟨he, ?_, hall⟩
          rintro r' hr' hne
          rw [Option.some.injEq] at hr'
          subst hr'
          exact absurd hrc0 hne
        · rintro ⟨he, _, hall⟩
          exact ⟨he, hall⟩

/-- C8 (amended): discovery fails iff no command run contributed any device
AND at least one command exited nonzero with nonempty (stripped) stderr.  A
run in which commands succeed with zero devices and no command reported an
error is a successful empty result — but a zero-device success does not
prevent the error when another command failed with stderr. -/
theorem discover_devices_error_iff (bt : List (String × Option (RunResult (String × String))))
    (fb : List (String × Option (RunResult String))) :
    (∃ msg, _discover_devices bt fb = Except.error msg) ↔
      ((∀ e ∈ bt, ∀ r, e.2 = some r → r.returncode = 0 → r.parsed = [])
       ∧ (∀ e ∈ fb, ∀ r, e.2 = some r → r.returncode = 0 → r.parsed = [])
       ∧ ((∃ e ∈ bt, ∃ r, e.2 = some r ∧ r.returncode ≠ 0 ∧ (pyStrip r.stderr).data ≠ [])
          ∨ (∃ e ∈ fb, ∃ r, e.2 = some r ∧ r.returncode ≠ 0 ∧ (pyStrip r.stderr).data ≠ []))) := by
  rcases hbt : runCommands btParse bt [] [] [] with ⟨s1, d1, e1⟩
  have hA : (d1 = []) ↔
      (∀ e ∈ bt, ∀ r, e.2 = some r → r.returncode = 0 → r.parsed = []) := by
    have h := runCommands_devices_nil btParse bt [] [] [] (fun _ => rfl)
    rw [hbt] at h
    simpa using h
  have hE1 : (e1 = []) ↔
      (∀ e ∈ bt, ∀ r, e.2 = some r → r.returncode ≠ 0 → (pyStrip r.stderr).data = []) := by
    have h := runCommands_errors_nil btParse bt [] [] []
    rw [hbt] at h
    simpa using h
  by_cases hd1 : d1 = []
  · subst hd1
    have hs1 : s1 = [] := by
      have h := runCommands_exit_inv btParse bt [] [] [] (fun _ => rfl)
      rw [hbt] at h
      exact h rfl
    rcases hfb : runCommands fbParse fb s1 [] e1 with ⟨s2, d2, e2⟩
    have hB : (d2 = []) ↔
        (∀ e ∈ fb, ∀ r, e.2 = some r → r.returncode = 0 → r.parsed = []) := by
      have h := runCommands_devices_nil fbParse fb s1 [] e1 (fun _ => hs1)
      rw [hfb] at h
      simpa using h
    have hE2 : (e2 = []) ↔
        (e1 = [] ∧ ∀ e ∈ fb, ∀ r, e.2 = some r → r.returncode ≠ 0 →
          (pyStrip r.stderr).data = []) := by
      have h := runCommands_errors_nil fbParse fb s1 [] e1
      rw [hfb] at h
      exact h
    simp only [_discover_devices, hbt, hfb]
    rw [if_neg (show ¬ (([] : List DetectedDevice).isEmpty = false) by simp)]
    by_cases hd2 : d2 = []
    · subst hd2
      rw [if_neg (show ¬ (([] : List DetectedDevice).isEmpty = false) by simp)]
      by_cases he2 : e2 = []
      · subst he2
        rw [if_neg (show ¬ (([] : List String).isEmpty = false) by simp)]
        constructor
        · rintro ⟨msg, hmsg⟩
          simp at hmsg
        · rintro ⟨_, _, hC⟩
          obtain ⟨hbtNo, hfbNo⟩ := hE2.mp rfl
          have hbtNo' := hE1.mp hbtNo
          rcases hC with ⟨e, he, r, hr, hrc, hse⟩ | ⟨e, he, r, hr, hrc, hse⟩
          · exact absurd (hbtNo' e he r hr hrc) hse
          · exact absurd (hfbNo e he r hr hrc) hse
      · have he2' : e2.isEmpty = false := by
          cases e2 with
          | nil => exact absurd rfl he2
          | cons a l => rfl
        rw [if_pos he2']
        constructor
        · intro _
          refine ⟨hA.mp rfl, hB.mp rfl, ?_⟩
          have hne2 : ¬ (e1 = [] ∧ ∀ e ∈ fb, ∀ r, e.2 = some r → r.returncode ≠ 0 →
              (pyStrip r.stderr).data = []) := fun hq => he2 (hE2.mpr hq)
          rcases not_and_or.mp hne2 with h | h
          · have hbtBad : ¬ (∀ e ∈ bt, ∀ r, e.2 = some r → r.returncode ≠ 0 →
                (pyStrip r.stderr).data = []) := fun hb => h (hE1.mpr hb)
            left
            push_neg at hbtBad
            exact hbtBad
          · right
            push_neg at h
            exact h
        · intro _
          exact ⟨_, rfl⟩
    · have hd2' : d2.isEmpty = false := by
        cases d2 with
        | nil => exact absurd rfl hd2
        | cons a l => rfl
      rw [if_pos hd2']
      constructor
      · rintro ⟨msg, hmsg⟩
        simp at hmsg
      · rintro ⟨_, hBt, _⟩
        exact absurd (hB.mpr hBt) hd2
  · have hd1' : d1.isEmpty = false := by
      cases d1 with
      | nil => exact absurd rfl hd1
      | cons a l => rfl
    simp only [_discover_devices, hbt]
    rw [if_pos hd1']
    constructor
    · rintro ⟨msg, hmsg⟩
      simp at hmsg
    · rintro ⟨hAt, _, _⟩
      exact absurd (hA.mpr hAt) hd1

/-- C1 (witness): the OnePlus example device scores 3 against its plugin,
via the characterisation. -/
theorem match_score_cases_witness :
    match_score onePlusDevice onePlusPlugin = 3 :=
  (match_score_cases onePlusDevice onePlusPlugin).1.mpr (by decide)

/-- C2 (witness): the characterisation applied to a singleton mapping. -/
theorem best_plugin_for_device_spec_witness :
    0 < match_score onePlusDevice onePlusPlugin ∧
    ∃ pre post,
      ([("oneplus_buds4", onePlusPlugin)] : List (String × Plugin)).map Prod.snd =
        pre ++ onePlusPlugin :: post ∧
      (∀ p ∈ pre, match_score onePlusDevice p < match_score onePlusDevice onePlusPlugin) ∧
      (∀ p ∈ post, match_score onePlusDevice p ≤ match_score onePlusDevice onePlusPlugin) :=
  (best_plugin_for_device_spec onePlusDevice [("oneplus_buds4", onePlusPlugin)]).2
    onePlusPlugin (by decide)

/-- C3 (witness for the amended theorem): one bundled and one colliding user
document — the user plugin wins and exactly one warning names the id. -/
theorem load_plugins_merge_spec_witness :
    dictGet (load_plugins [pluginA] [pluginB]).plugins "x" = some pluginB
  ∧ (load_plugins [pluginA] [pluginB]).warnings = [overrideWarning "x"] := by
  have h := load_plugins_merge_spec [pluginA] [pluginB]
  refine ⟨(h.1 "x").trans (by decide), h.2.trans (by decide)⟩

/-- C8 (witness for the amended theorem): the error condition instantiated
at a concrete run, via the right-to-left direction. -/
theorem discover_devices_error_iff_witness :
    ∃ msg, _discover_devices [("bluetoothctl devices", some btOkEmpty)]
      [("hcitool con", some fbErr)] = Except.error msg := by
  refine (discover_devices_error_iff [("bluetoothctl devices", some btOkEmpty)]
    [("hcitool con", some fbErr)]).mpr ⟨?_, ?_, Or.inr ?_⟩
  · intro e he r hr _
    simp at he
    rw [he] at hr
    simp at hr
    rw [← hr]
    rfl
  · intro e he r hr hrc
    simp at he
    rw [he] at hr
    simp at hr
    rw [← hr]
    rfl
  · exact ⟨("hcitool con", some fbErr), by simp, fbErr, rfl, by decide, by decide⟩

/-- C10 (witness): the empty-plugin-id equality at a concrete state. -/
theorem empty_string_args_spec_witness :
    resolve_target [("oneplus_buds4", onePlusPlugin)] [onePlusDevice] (some "") none =
      resolve_target [("oneplus_buds4", onePlusPlugin)] [onePlusDevice] none none :=
  (empty_string_args_spec [("oneplus_buds4", onePlusPlugin)] [onePlusDevice]).1 none
